import Mathlib

/-!
Verification development for the IRReceiver library (Chisight/IRReceiver).

This file is a shallow embedding of the decode pipeline of `IRReceiver.cpp` /
`IRReceiver.h` into Lean 4, together with theorems about it.

Modelling conventions:
* C `int` values (pulse/space durations, commands, addresses, scores, indices)
  become `Int`; the sentinel `-1` (MISSING space / undecoded field) is kept.
* `uint32_t` timestamps become `Nat` (the code masks them to 31 bits itself).
* Fixed C arrays with an explicit element count become Lean lists.
* Member fields that every call resets before reading
  (`m_pulseSpacePairCount`, `m_brandScores`, `m_decodedSegments`,
  `m_decodedSegmentCount`) are modelled as locals of the functions that use
  them; the persistent session fields are collected in the `IRState` structure.
* The `float` percentage tolerance `0.10f` is modelled as the exact rational
  `1/10`; the comparison structure of `isWithinPercentageTolerance` is kept.
* Hardware reads (`micros`, `millis`, `digitalRead`, interrupt attach success)
  become explicit parameters of the corresponding operations.
-/

set_option maxHeartbeats 1000000

/-- The `enum RemoteBrand` of `IRReceiver.h`. -/
inductive RemoteBrand where
  | UNKNOWN
  | JVC
  | SONY
  | NEC
deriving DecidableEq, Repr

/-- The `struct PulseSpacePair`; `space = -1` encodes a MISSING space. -/
structure PulseSpacePair where
  pulse : Int
  space : Int
deriving DecidableEq, Repr

/-- The `struct DecodedIR` with its member initialisers. -/
structure DecodedIR where
  brand : RemoteBrand := RemoteBrand.UNKNOWN
  command : Int := -1
  address : Int := -1
deriving DecidableEq, Repr

/-- The default-constructed `DecodedIR()` (the empty / unknown value). -/
def DecodedIR.empty : DecodedIR := {}

/-! ## Configuration constants (`IRReceiver.h`) -/

def IR_LIB_MAX_TRANSITIONS : Nat := 300

def IR_LIB_IDLE_TIMEOUT_MS : Nat := 100

def IR_LIB_MAX_DECODED_SEGMENTS : Nat := 10

def JVC_PREAMBLE_PULSE : Int := 8400

def JVC_PREAMBLE_SPACE : Int := 4200

def JVC_BIT_PULSE : Int := 526

def JVC_ZERO_SPACE : Int := 526

def JVC_ONE_SPACE : Int := 1574

def JVC_REPEAT_DELAY : Int := 22000

def JVC_REPEAT_PREAMBLE_PULSE : Int := 0

def JVC_REPEAT_PREAMBLE_SPACE : Int := 0

def JVC_INITIAL_BITS : Int := 17

def JVC_REPEAT_BITS : Int := 16

def SONY_PREAMBLE_PULSE : Int := 2400

def SONY_PREAMBLE_SPACE : Int := 600

def SONY_ZERO_PULSE : Int := 600

def SONY_ONE_PULSE : Int := 1200

def SONY_BIT_SPACE : Int := 600

def SONY_REPEAT_DELAY : Int := 25000

def SONY_REPEAT_PREAMBLE_PULSE : Int := 2400

def SONY_REPEAT_PREAMBLE_SPACE : Int := 600

def SONY_INITIAL_BITS : Int := 13

def SONY_REPEAT_BITS : Int := 13

def NEC_PREAMBLE_PULSE : Int := 9000

def NEC_PREAMBLE_SPACE : Int := 4500

def NEC_BIT_PULSE : Int := 563

def NEC_ZERO_SPACE : Int := 563

def NEC_ONE_SPACE : Int := 563 * 3

def NEC_REPEAT_DELAY : Int := 42000

def NEC_REPEAT_PREAMBLE_PULSE : Int := 8900

def NEC_REPEAT_PREAMBLE_SPACE : Int := 2200

def NEC_INITIAL_BITS : Int := 33

def NEC_REPEAT_BITS : Int := 1

def TIMING_TOLERANCE : Int := 200

def PERCENTAGE_TOLERANCE : ℚ := 1/10

def TIME_VALUE_MASK : Nat := 0x7FFFFFFF

/-! ## Tolerance helpers -/

/-- Source `IRReceiver::isWithinTolerance`: `abs(captured - expected) <= tolerance`. -/
def isWithinTolerance (captured expected tolerance : Int) : Prop :=
  |captured - expected| ≤ tolerance

instance (captured expected tolerance : Int) :
    Decidable (isWithinTolerance captured expected tolerance) :=
  inferInstanceAs (Decidable (|captured - expected| ≤ tolerance))

/-- Source `IRReceiver::isWithinPercentageTolerance`; the `float` multiplication is
modelled over `ℚ`, keeping the exact shape
`abs(captured - expected) <= expected * tolerance_percent`. -/
def isWithinPercentageTolerance (captured expected : Int)
    (tolerance_percent : ℚ) : Prop :=
  if expected = 0 then captured = 0
  else ((|captured - expected| : Int) : ℚ) ≤ (expected : ℚ) * tolerance_percent

instance (captured expected : Int) (p : ℚ) :
    Decidable (isWithinPercentageTolerance captured expected p) := by
  unfold isWithinPercentageTolerance
  split <;> infer_instance

/-- Source `IRReceiver::matchPreamble`. -/
def matchPreamble (pulse space : Int) (isRepeatPreamble : Bool) : RemoteBrand :=
  if isRepeatPreamble then
    if isWithinTolerance pulse JVC_REPEAT_PREAMBLE_PULSE TIMING_TOLERANCE ∧
       isWithinTolerance space JVC_REPEAT_PREAMBLE_SPACE TIMING_TOLERANCE then
      RemoteBrand.JVC
    else if isWithinTolerance pulse SONY_REPEAT_PREAMBLE_PULSE TIMING_TOLERANCE ∧
            isWithinTolerance space SONY_REPEAT_PREAMBLE_SPACE TIMING_TOLERANCE then
      RemoteBrand.SONY
    else if isWithinTolerance pulse NEC_REPEAT_PREAMBLE_PULSE TIMING_TOLERANCE ∧
            isWithinTolerance space NEC_REPEAT_PREAMBLE_SPACE TIMING_TOLERANCE then
      RemoteBrand.NEC
    else RemoteBrand.UNKNOWN
  else
    if isWithinTolerance pulse JVC_PREAMBLE_PULSE TIMING_TOLERANCE ∧
       isWithinTolerance space JVC_PREAMBLE_SPACE TIMING_TOLERANCE then
      RemoteBrand.JVC
    else if isWithinTolerance pulse SONY_PREAMBLE_PULSE TIMING_TOLERANCE ∧
            isWithinTolerance space SONY_PREAMBLE_SPACE TIMING_TOLERANCE then
      RemoteBrand.SONY
    else if isWithinTolerance pulse NEC_PREAMBLE_PULSE TIMING_TOLERANCE ∧
            isWithinTolerance space NEC_PREAMBLE_SPACE TIMING_TOLERANCE then
      RemoteBrand.NEC
    else RemoteBrand.UNKNOWN

/-! ## Pair extraction (`IRReceiver::_processRawTransitionsToPairs`) -/

/-- The wraparound-safe delta of `_processRawTransitionsToPairs`:
`next >= prev ? next - prev : (TIME_VALUE_MASK - prev) + next + 1`. -/
def computeDelta (prev next : Nat) : Nat :=
  if next ≥ prev then next - prev else (TIME_VALUE_MASK - prev) + next + 1

/-- Loop body of `_processRawTransitionsToPairs` over the transitions after the
first one.  `currentPulse = -1` is the "no pulse pending" sentinel of the C
code; the pair buffer is capped at `IR_LIB_MAX_TRANSITIONS / 2` entries and the
loop `break`s (returning the pairs collected so far) when the cap is hit. -/
def processGo : List Nat → Nat → Int → List PulseSpacePair → List PulseSpacePair
  | [], _, currentPulse, acc =>
      if currentPulse ≠ -1 ∧ acc.length < IR_LIB_MAX_TRANSITIONS / 2 then
        acc ++ [⟨currentPulse, -1⟩]
      else acc
  | t :: rest, prev, currentPulse, acc =>
      if acc.length ≥ IR_LIB_MAX_TRANSITIONS / 2 then acc
      else
        let cur := t &&& TIME_VALUE_MASK
        let delta := computeDelta prev cur
        if currentPulse = -1 then
          processGo rest cur (delta : Int) acc
        else if (delta : Int) > (IR_LIB_IDLE_TIMEOUT_MS : Int) * 1000 then
          processGo rest cur (-1) (acc ++ [⟨currentPulse, -1⟩])
        else
          processGo rest cur (-1) (acc ++ [⟨currentPulse, (delta : Int)⟩])

/-- Source `IRReceiver::_processRawTransitionsToPairs`: fewer than two transitions
yield no pairs; otherwise successive deltas are paired up as pulse/space. -/
def processRawTransitionsToPairs (transitions : List Nat) : List PulseSpacePair :=
  match transitions with
  | [] => []
  | [_] => []
  | t0 :: rest => processGo rest (t0 &&& TIME_VALUE_MASK) (-1) []

/-! ## Bit decoding -/

/-- List indexing with the out-of-range default `⟨0, 0⟩`; the embedded loops
only ever index in range, mirroring the C array accesses. -/
def pget (pairs : List PulseSpacePair) (i : Nat) : PulseSpacePair :=
  pairs.getD i ⟨0, 0⟩

/-- The inclusive index range `[a, b]` (empty when `b < a`). -/
def idxRange (a b : Nat) : List Nat :=
  (List.range (b + 1 - a)).map (a + ·)

/-- SONY bit loop of `decodeWinningSegment` (pulse-coded, max
`SONY_INITIAL_BITS - 1 = 12` bits).  Returns `(rawBits, bitCount)`. -/
def sonyBitLoop : List PulseSpacePair → Nat → Nat → Nat × Nat
  | [], raw, bc => (raw, bc)
  | p :: rest, raw, bc =>
      if bc < 12 then
        if p.pulse ≠ -1 then
          if isWithinTolerance p.pulse SONY_ZERO_PULSE TIMING_TOLERANCE then
            sonyBitLoop rest raw (bc + 1)
          else if isWithinTolerance p.pulse SONY_ONE_PULSE TIMING_TOLERANCE then
            sonyBitLoop rest (raw ||| (1 <<< bc)) (bc + 1)
          else (raw, bc)
        else (raw, bc)
      else (raw, bc)

/-- JVC bit loop of `decodeWinningSegment` (space-coded, max 16 bits); a
MISSING space on the final pair is inferred as a ZERO space. -/
def jvcBitLoop : List PulseSpacePair → Nat → Nat → Nat × Nat
  | [], raw, bc => (raw, bc)
  | p :: rest, raw, bc =>
      if bc < 16 then
        let space := if rest = [] ∧ p.space = -1 then JVC_ZERO_SPACE else p.space
        if isWithinTolerance p.pulse JVC_BIT_PULSE TIMING_TOLERANCE then
          if space ≠ -1 then
            if isWithinTolerance space JVC_ZERO_SPACE TIMING_TOLERANCE then
              jvcBitLoop rest raw (bc + 1)
            else if isWithinTolerance space JVC_ONE_SPACE TIMING_TOLERANCE then
              jvcBitLoop rest (raw ||| (1 <<< bc)) (bc + 1)
            else (raw, bc)
          else (raw, bc)
        else (raw, bc)
      else (raw, bc)

/-- Source `IRReceiver::decodeWinningSegment` (SONY and JVC; NEC segments are decoded
by `decodeNECData`). -/
def decodeWinningSegment (brand : RemoteBrand)
    (dataPairs : List PulseSpacePair) : DecodedIR :=
  if brand = RemoteBrand.UNKNOWN ∨ dataPairs.length = 0 then DecodedIR.empty
  else if brand = RemoteBrand.SONY then
    let r := sonyBitLoop dataPairs 0 0
    { brand := RemoteBrand.SONY
      command := if r.2 ≥ 7 then ((r.1 >>> 0) &&& 0x7F : Nat) else -1
      address := if r.2 ≥ 12 then ((r.1 >>> 7) &&& 0x1F : Nat) else -1 }
  else if brand = RemoteBrand.JVC then
    let r := jvcBitLoop dataPairs 0 0
    { brand := RemoteBrand.JVC
      address := if r.2 ≥ 8 then ((r.1 >>> 0) &&& 0xFF : Nat) else -1
      command := if r.2 ≥ 16 then ((r.1 >>> 8) &&& 0xFF : Nat) else -1 }
  else { brand := brand, command := -1, address := -1 }

/-- NEC bit loop of `decodeNECData` (space-coded, max
`NEC_INITIAL_BITS - 1 = 32` bits); a MISSING space on the final pair is
inferred as a ZERO space.  Returns `(rawBits, bitCount)`. -/
def necBitLoop : List PulseSpacePair → Nat → Nat → Nat × Nat
  | [], raw, bc => (raw, bc)
  | p :: rest, raw, bc =>
      if bc < 32 then
        let space := if rest = [] ∧ p.space = -1 then NEC_ZERO_SPACE else p.space
        if isWithinTolerance p.pulse NEC_BIT_PULSE TIMING_TOLERANCE then
          if space ≠ -1 then
            if isWithinTolerance space NEC_ZERO_SPACE TIMING_TOLERANCE then
              necBitLoop rest raw (bc + 1)
            else if isWithinTolerance space NEC_ONE_SPACE TIMING_TOLERANCE then
              necBitLoop rest (raw ||| (1 <<< bc)) (bc + 1)
            else (raw, bc)
          else (raw, bc)
        else (raw, bc)
      else (raw, bc)

/-- Local `addressByte1` of `decodeNECData`: `(bitCount >= 8) ? (rawBits >> 0) & 0xFF : -1`. -/
def necAddressByte1 (raw bc : Nat) : Int :=
  if bc ≥ 8 then (((raw >>> 0) &&& 0xFF : Nat) : Int) else -1

/-- Local `addressByte2` of `decodeNECData`. -/
def necAddressByte2 (raw bc : Nat) : Int :=
  if bc ≥ 16 then (((raw >>> 8) &&& 0xFF : Nat) : Int) else -1

/-- Local `commandByte1` of `decodeNECData`. -/
def necCommandByte1 (raw bc : Nat) : Int :=
  if bc ≥ 24 then (((raw >>> 16) &&& 0xFF : Nat) : Int) else -1

/-- Local `commandByte2` of `decodeNECData`. -/
def necCommandByte2 (raw bc : Nat) : Int :=
  if bc ≥ 32 then (((raw >>> 24) &&& 0xFF : Nat) : Int) else -1

/-- The NEC address collapse rule: 8-bit address when the two address bytes
are mutual ones-complements (`(uint8_t)(b1 + b2) == 0xFF`), the combined 16-bit
value otherwise, a lone 8-bit address when only one byte decoded. -/
def necAddress (raw bc : Nat) : Int :=
  if necAddressByte1 raw bc ≠ -1 ∧ necAddressByte2 raw bc ≠ -1 ∧
      (necAddressByte1 raw bc + necAddressByte2 raw bc) % 256 = 0xFF then
    necAddressByte1 raw bc
  else if necAddressByte1 raw bc ≠ -1 ∧ necAddressByte2 raw bc ≠ -1 then
    necAddressByte2 raw bc * 256 + necAddressByte1 raw bc
  else if necAddressByte1 raw bc ≠ -1 then necAddressByte1 raw bc
  else -1

/-- Field extraction of `decodeNECData` from the accumulated `(rawBits,
bitCount)`: byte slicing, 8-vs-16-bit address collapse, and the command
checksum flag (set only when both command bytes are available and are mutual
ones-complements of each other). -/
def necFields (raw bc : Nat) : DecodedIR × Bool :=
  ({ brand := RemoteBrand.NEC
     command := if necCommandByte1 raw bc ≠ -1 then necCommandByte1 raw bc else -1
     address := necAddress raw bc },
   if necCommandByte1 raw bc ≠ -1 ∧ necCommandByte2 raw bc ≠ -1 ∧
       (necCommandByte1 raw bc + necCommandByte2 raw bc) % 256 = 0xFF then
     true
   else false)

/-- Source `IRReceiver::decodeNECData`; the pair `(frame, checksumValid)` models the
`DecodedNECInternal` struct. -/
def decodeNECData (dataPairs : List PulseSpacePair) : DecodedIR × Bool :=
  necFields (necBitLoop dataPairs 0 0).1 (necBitLoop dataPairs 0 0).2

/-! ## Scoring (`scoreSonySIRC12`, `scoreJVC`, `scoreNEC`) -/

/-- SONY structure check, marks side: `marksAreVariable` is the negation of
"every data pulse after the first stays within tolerance of the first". -/
def sonyMarksVariable (pairs : List PulseSpacePair) (dataStart endi : Nat) : Bool :=
  ! ((idxRange (dataStart + 1) endi).all fun j =>
      decide (isWithinTolerance (pget pairs j).pulse (pget pairs dataStart).pulse
        TIMING_TOLERANCE))

/-- The first data space in `[dataStart, endi]` that is present and not a
repeat gap, or `-1` when there is none. -/
def sonyFirstValidDataSpace (pairs : List PulseSpacePair) (dataStart endi : Nat) : Int :=
  match (idxRange dataStart endi).find? (fun j =>
      decide ((pget pairs j).space ≠ -1 ∧
        ¬ isWithinTolerance (pget pairs j).space SONY_REPEAT_DELAY 5000)) with
  | some j => (pget pairs j).space
  | none => -1

/-- SONY structure check, spaces side (`spacesAreFixed`): every present,
non-repeat-gap space matches the first valid data space, and a repeat-gap
space may only occur at the segment end. -/
def sonySpacesFixed (pairs : List PulseSpacePair) (dataStart endi : Nat) : Bool :=
  decide (sonyFirstValidDataSpace pairs dataStart endi ≠ -1) &&
  (idxRange dataStart endi).all fun j =>
    decide ((pget pairs j).space = -1) ||
    (decide (¬ isWithinTolerance (pget pairs j).space SONY_REPEAT_DELAY 5000) &&
      decide (isWithinTolerance (pget pairs j).space
        (sonyFirstValidDataSpace pairs dataStart endi) TIMING_TOLERANCE)) ||
    (decide (isWithinTolerance (pget pairs j).space SONY_REPEAT_DELAY 5000) &&
      decide (j = endi))

/-- Score contribution of one SONY segment `[start, endi]` (`segCount` is the
1-based segment number): preamble point, data-pair-count point, structure
point. -/
def scoreSonySegment (pairs : List PulseSpacePair) (start endi segCount : Nat) : Int :=
  let p0 := pget pairs start
  let preambleHit : Bool :=
    decide (0 < (endi : Int) - start + 1) && decide (p0.space ≠ -1) &&
    decide (matchPreamble p0.pulse p0.space (!decide (segCount = 1)) = RemoteBrand.SONY)
  let dataStart := if preambleHit then start + 1 else start
  let preScore : Int := if preambleHit then 1 else 0
  let dataCount : Int := (endi : Int) - dataStart + 1
  let lenScore : Int :=
    if 0 < dataCount then
      if segCount = 1 then
        if isWithinTolerance dataCount (SONY_INITIAL_BITS - 1) 2 then 1 else 0
      else
        if isWithinTolerance dataCount (SONY_REPEAT_BITS - 1) 2 then 1 else 0
    else 0
  let structScore : Int :=
    if 0 < dataCount then
      if 1 < dataCount then
        if sonyMarksVariable pairs dataStart endi && sonySpacesFixed pairs dataStart endi
        then 1 else 0
      else 0
    else 0
  preScore + lenScore + structScore

/-- Segmentation loop of `scoreSonySIRC12` over the pair indices. -/
def scoreSonyGo (pairs : List PulseSpacePair) :
    List Nat → Nat → Nat → Int → Int
  | [], _, _, score => score
  | i :: rest, start, segCount, score =>
      let isEnd :=
        ((pget pairs i).space ≠ -1 ∧
          isWithinTolerance (pget pairs i).space SONY_REPEAT_DELAY 5000) ∨
        i = pairs.length - 1
      if isEnd then
        if 0 < (i : Int) - start + 1 then
          scoreSonyGo pairs rest (i + 1) (segCount + 1)
            (score + scoreSonySegment pairs start i (segCount + 1))
        else scoreSonyGo pairs rest start segCount score
      else scoreSonyGo pairs rest start segCount score

/-- Source `IRReceiver::scoreSonySIRC12`. -/
def scoreSonySIRC12 (pairs : List PulseSpacePair) : Int :=
  if pairs.length = 0 then 0
  else scoreSonyGo pairs (List.range pairs.length) 0 0 0

/-- JVC/NEC structure check, marks side (`marksAreFixed`): missing pulses are
skipped, every other pulse must stay within tolerance of the pulse at
`checkStart`. -/
def spaceCodedMarksFixed (pairs : List PulseSpacePair) (checkStart endi : Nat) : Bool :=
  (idxRange checkStart endi).all fun j =>
    decide ((pget pairs j).pulse = -1) ||
    decide (isWithinTolerance (pget pairs j).pulse (pget pairs checkStart).pulse
      TIMING_TOLERANCE)

/-- First present, non-repeat-gap space in `[checkStart, endi]` for the given
repeat delay, or `-1`. -/
def firstValidDataSpaceFor (repeatDelay : Int) (pairs : List PulseSpacePair)
    (checkStart endi : Nat) : Int :=
  match (idxRange checkStart endi).find? (fun j =>
      decide ((pget pairs j).space ≠ -1 ∧
        ¬ isWithinTolerance (pget pairs j).space repeatDelay 5000)) with
  | some j => (pget pairs j).space
  | none => -1

/-- JVC structure check, spaces side (`allSpacesFixed`): every present,
non-repeat-gap space matches the first valid data space. -/
def jvcAllSpacesFixed (pairs : List PulseSpacePair) (checkStart endi : Nat) : Bool :=
  decide (firstValidDataSpaceFor JVC_REPEAT_DELAY pairs checkStart endi ≠ -1) &&
  (idxRange checkStart endi).all fun j =>
    decide ((pget pairs j).space = -1) ||
    decide (isWithinTolerance (pget pairs j).space JVC_REPEAT_DELAY 5000) ||
    decide (isWithinTolerance (pget pairs j).space
      (firstValidDataSpaceFor JVC_REPEAT_DELAY pairs checkStart endi) TIMING_TOLERANCE)

/-- Score contribution of one JVC segment. -/
def scoreJVCSegment (pairs : List PulseSpacePair) (start endi segCount : Nat) : Int :=
  let p0 := pget pairs start
  let segPairs : Int := (endi : Int) - start + 1
  let preambleHit : Bool :=
    decide (segCount = 1) && decide (0 < segPairs) &&
    decide (p0.pulse ≠ -1) && decide (p0.space ≠ -1) &&
    decide (matchPreamble p0.pulse p0.space false = RemoteBrand.JVC)
  let headScore : Int :=
    if segCount = 1 then (if preambleHit then 1 else 0)
    else if isWithinTolerance ((endi : Int) - start + 1) JVC_INITIAL_BITS 2 then 1 else 0
  let dataStart := if preambleHit then start + 1 else start
  let lenScore : Int :=
    if segCount = 1 then
      if isWithinTolerance ((endi : Int) - dataStart + 1) (JVC_INITIAL_BITS - 1) 2
      then 1 else 0
    else 0
  let structScore : Int :=
    if 1 < segPairs then
      let checkStart := if segCount = 1 then dataStart else start
      if spaceCodedMarksFixed pairs checkStart endi &&
          !(jvcAllSpacesFixed pairs checkStart endi) then 1 else 0
    else 0
  headScore + lenScore + structScore

/-- Segmentation loop of `scoreJVC`. -/
def scoreJVCGo (pairs : List PulseSpacePair) :
    List Nat → Nat → Nat → Int → Int
  | [], _, _, score => score
  | i :: rest, start, segCount, score =>
      let isEnd :=
        ((pget pairs i).space ≠ -1 ∧
          isWithinTolerance (pget pairs i).space JVC_REPEAT_DELAY 5000) ∨
        i = pairs.length - 1
      if isEnd then
        if 0 < (i : Int) - start + 1 then
          scoreJVCGo pairs rest (i + 1) (segCount + 1)
            (score + scoreJVCSegment pairs start i (segCount + 1))
        else scoreJVCGo pairs rest start segCount score
      else scoreJVCGo pairs rest start segCount score

/-- Source `IRReceiver::scoreJVC`. -/
def scoreJVC (pairs : List PulseSpacePair) : Int :=
  if pairs.length = 0 then 0
  else scoreJVCGo pairs (List.range pairs.length) 0 0 0

/-- NEC structure check, spaces side (`allSpacesFixed`): like SONY, a
repeat-gap space may only occur at the segment end. -/
def necAllSpacesFixed (pairs : List PulseSpacePair) (dataStart endi : Nat) : Bool :=
  decide (firstValidDataSpaceFor NEC_REPEAT_DELAY pairs dataStart endi ≠ -1) &&
  (idxRange dataStart endi).all fun j =>
    decide ((pget pairs j).space = -1) ||
    (decide (¬ isWithinTolerance (pget pairs j).space NEC_REPEAT_DELAY 5000) &&
      decide (isWithinTolerance (pget pairs j).space
        (firstValidDataSpaceFor NEC_REPEAT_DELAY pairs dataStart endi) TIMING_TOLERANCE)) ||
    (decide (isWithinTolerance (pget pairs j).space NEC_REPEAT_DELAY 5000) &&
      decide (j = endi))

/-- Score contribution of one NEC segment.  Note the quirk of the source:
`if (marksAreFixed) spacesAreVariable = true;`, so for NEC the structure point
is awarded exactly when the marks are fixed. -/
def scoreNECSegment (pairs : List PulseSpacePair) (start endi segCount : Nat) : Int :=
  let p0 := pget pairs start
  let segPairs : Int := (endi : Int) - start + 1
  let preambleHit : Bool :=
    decide (0 < segPairs) && decide (p0.pulse ≠ -1) && decide (p0.space ≠ -1) &&
    decide (matchPreamble p0.pulse p0.space (!decide (segCount = 1)) = RemoteBrand.NEC)
  let dataStart := if preambleHit then start + 1 else start
  let preScore : Int := if preambleHit then 1 else 0
  let dataCount : Int := (endi : Int) - dataStart + 1
  let bodyScore : Int :=
    if 0 < dataCount ∨ (¬ segCount = 1 ∧ dataCount = NEC_REPEAT_BITS) then
      let lenScore : Int :=
        if segCount = 1 then
          if isWithinTolerance dataCount (NEC_INITIAL_BITS - 1) 2 then 1 else 0
        else
          if isWithinTolerance dataCount NEC_REPEAT_BITS 1 then 1 else 0
      let structScore : Int :=
        if 1 < dataCount ∧ segCount = 1 then
          let marksAreFixed := spaceCodedMarksFixed pairs dataStart endi
          let spacesAreVariable :=
            marksAreFixed || !(necAllSpacesFixed pairs dataStart endi)
          if marksAreFixed && spacesAreVariable then 1 else 0
        else 0
      lenScore + structScore
    else 0
  preScore + bodyScore

/-- Segmentation loop of `scoreNEC`. -/
def scoreNECGo (pairs : List PulseSpacePair) :
    List Nat → Nat → Nat → Int → Int
  | [], _, _, score => score
  | i :: rest, start, segCount, score =>
      let isEnd :=
        ((pget pairs i).space ≠ -1 ∧
          isWithinTolerance (pget pairs i).space NEC_REPEAT_DELAY 5000) ∨
        i = pairs.length - 1
      if isEnd then
        if 0 < (i : Int) - start + 1 then
          scoreNECGo pairs rest (i + 1) (segCount + 1)
            (score + scoreNECSegment pairs start i (segCount + 1))
        else scoreNECGo pairs rest start segCount score
      else scoreNECGo pairs rest start segCount score

/-- Source `IRReceiver::scoreNEC`. -/
def scoreNEC (pairs : List PulseSpacePair) : Int :=
  if pairs.length = 0 then 0
  else scoreNECGo pairs (List.range pairs.length) 0 0 0

/-! ## Winning-brand selection (`_analyzeAndDecodeBurst`, lines 282-298) -/

/-- One iteration of the score-maximum loop:
`if (m_brandScores[i] > maxScore) { maxScore = ...; winningBrand = ...; }`. -/
def selectStep (acc : RemoteBrand × Int) (b : RemoteBrand) (sc : Int) : RemoteBrand × Int :=
  if sc > acc.2 then (b, sc) else acc

/-- Final `if (maxScore == 0) winningBrand = UNKNOWN;`. -/
def selectFinal (acc : RemoteBrand × Int) : RemoteBrand :=
  if acc.2 = 0 then RemoteBrand.UNKNOWN else acc.1

/-- The winning-brand selection of `_analyzeAndDecodeBurst`: the loop runs over
brand indices 1, 2, 3, i.e. JVC, SONY, NEC in that order. -/
def selectWinningBrand (sJVC sSONY sNEC : Int) : RemoteBrand :=
  selectFinal
    (selectStep
      (selectStep
        (selectStep (RemoteBrand.UNKNOWN, 0) RemoteBrand.JVC sJVC)
        RemoteBrand.SONY sSONY)
      RemoteBrand.NEC sNEC)

/-! ## Segment decoding loop (`_analyzeAndDecodeBurst`, lines 300-358) -/

/-- Per-brand repeat delay used for segment splitting. -/
def brandRepeatDelay : RemoteBrand → Int
  | RemoteBrand.SONY => SONY_REPEAT_DELAY
  | RemoteBrand.NEC => NEC_REPEAT_DELAY
  | RemoteBrand.JVC => JVC_REPEAT_DELAY
  | RemoteBrand.UNKNOWN => 0

/-- Segment-end test of the decoding loop (space within 5000µs of the winning
brand repeat delay, or last pair of the burst). -/
def segIsEnd (winner : RemoteBrand) (pairs : List PulseSpacePair) (i : Nat) : Prop :=
  (brandRepeatDelay winner > 0 ∧ (pget pairs i).space ≠ -1 ∧
    isWithinTolerance (pget pairs i).space (brandRepeatDelay winner) 5000) ∨
  i = pairs.length - 1

instance (winner : RemoteBrand) (pairs : List PulseSpacePair) (i : Nat) :
    Decidable (segIsEnd winner pairs i) :=
  inferInstanceAs (Decidable (_ ∨ _))

/-- Decode one identified segment `[start + dataStart, i]` and append it to
the decoded-segment list when its brand was set (NEC segments carry their
checksum flag, other brands record `false`). -/
def segAppend (winner : RemoteBrand) (pairs : List PulseSpacePair)
    (start dataStart i : Nat) (acc : List (DecodedIR × Bool)) :
    List (DecodedIR × Bool) :=
  let numData : Int := (i : Int) - ((start : Int) + (dataStart : Int)) + 1
  if 0 < numData then
    let seg := (pairs.drop (start + dataStart)).take numData.toNat
    let dec :=
      if winner = RemoteBrand.NEC then decodeNECData seg
      else (decodeWinningSegment winner seg, false)
    if dec.1.brand ≠ RemoteBrand.UNKNOWN then acc ++ [dec] else acc
  else acc

/-- Repeat-preamble test for the pair that starts the next segment. -/
def nextDataStart (winner : RemoteBrand) (pairs : List PulseSpacePair)
    (start' : Nat) : Nat :=
  if start' < pairs.length ∧ (pget pairs start').pulse ≠ -1 ∧
      (pget pairs start').space ≠ -1 ∧
      matchPreamble (pget pairs start').pulse (pget pairs start').space true = winner
  then 1 else 0

/-- The decoded-segment collection loop.  `acc` is the
`m_decodedSegments`/`segmentChecksums` list (frame together with its NEC
checksum flag, `false` for non-NEC brands); the loop runs while
`acc.length < IR_LIB_MAX_DECODED_SEGMENTS`. -/
def decodeSegmentsGo (winner : RemoteBrand) (pairs : List PulseSpacePair) :
    List Nat → Nat → Nat → List (DecodedIR × Bool) → List (DecodedIR × Bool)
  | [], _, _, acc => acc
  | i :: rest, start, dataStart, acc =>
      if acc.length < IR_LIB_MAX_DECODED_SEGMENTS then
        if segIsEnd winner pairs i then
          decodeSegmentsGo winner pairs rest (i + 1)
            (nextDataStart winner pairs (i + 1))
            (segAppend winner pairs start dataStart i acc)
        else decodeSegmentsGo winner pairs rest start dataStart acc
      else acc

/-- Segment identification and decoding for the winning brand, including the
initial-preamble offset computed before the loop. -/
def decodeSegments (winner : RemoteBrand) (pairs : List PulseSpacePair) :
    List (DecodedIR × Bool) :=
  let initialPreambleOffset :=
    if 0 < pairs.length ∧ (pget pairs 0).pulse ≠ -1 ∧ (pget pairs 0).space ≠ -1 ∧
        matchPreamble (pget pairs 0).pulse (pget pairs 0).space false ≠ RemoteBrand.UNKNOWN ∧
        matchPreamble (pget pairs 0).pulse (pget pairs 0).space false = winner
    then 1 else 0
  decodeSegmentsGo winner pairs (List.range pairs.length) 0 initialPreambleOffset []

/-! ## Winner determination (`IRReceiver::determineWinner`) -/

/-- The `DecodedCount` struct local to `determineWinner`. -/
structure DecodedCount where
  data : DecodedIR
  count : Int := 0
  checksumValidForNEC : Bool := false
deriving DecidableEq, Repr

/-- The group-equality test of `determineWinner`: exact
(brand, command, address) match, plus equal checksum state when the segment
brand is NEC. -/
def GroupMatch (seg : DecodedIR) (segChk : Bool) (g : DecodedCount) : Prop :=
  (seg.brand = g.data.brand ∧ seg.command = g.data.command ∧
    seg.address = g.data.address) ∧
  (seg.brand = RemoteBrand.NEC → segChk = g.checksumValidForNEC)

instance (seg : DecodedIR) (segChk : Bool) (g : DecodedCount) :
    Decidable (GroupMatch seg segChk g) :=
  inferInstanceAs (Decidable (_ ∧ _))

/-- Increment the count of the first matching group, if any. -/
def bumpFirst : List DecodedCount → DecodedIR → Bool → Option (List DecodedCount)
  | [], _, _ => none
  | g :: gs, seg, chk =>
      if GroupMatch seg chk g then some ({ g with count := g.count + 1 } :: gs)
      else
        match bumpFirst gs seg chk with
        | some gs' => some (g :: gs')
        | none => none

/-- One iteration of the grouping loop of `determineWinner`: segments with
`brand == UNKNOWN` or `command == -1` are skipped; otherwise the first
matching group is counted up, or a new group is appended while fewer than
`IR_LIB_MAX_DECODED_SEGMENTS` groups exist. -/
def addSegment (gs : List DecodedCount) (seg : DecodedIR) (chk : Bool) :
    List DecodedCount :=
  if seg.brand ≠ RemoteBrand.UNKNOWN ∧ seg.command ≠ -1 then
    match bumpFirst gs seg chk with
    | some gs' => gs'
    | none =>
        if gs.length < IR_LIB_MAX_DECODED_SEGMENTS then
          gs ++ [{ data := seg, count := 1,
                   checksumValidForNEC :=
                     if seg.brand = RemoteBrand.NEC then chk else false }]
        else gs
  else gs

/-- The grouping phase of `determineWinner` over all decoded segments. -/
def buildGroups (segs : List (DecodedIR × Bool)) : List DecodedCount :=
  segs.foldl (fun gs p => addSegment gs p.1 p.2) []

/-- The max-count scan of `determineWinner`:
`if (counts[i].count > maxCount) { maxCount = ...; winnerIndex = i; }`. -/
def winnerIndexAux : List Int → Int → Int → Int → Int
  | [], _, _, wi => wi
  | c :: cs, i, maxC, wi =>
      if c > maxC then winnerIndexAux cs (i + 1) c i
      else winnerIndexAux cs (i + 1) maxC wi

/-- The scan `winnerIndex` starts at `-1` with `maxCount = 0`. -/
def winnerIndex (counts : List Int) : Int :=
  winnerIndexAux counts 0 0 (-1)

/-- Source `IRReceiver::determineWinner`: returns the final result code (the
default-constructed `DecodedIR()` when no winner is found, i.e. when the
max-count scan left `winnerIndex` at `-1`). -/
def determineWinner (segs : List (DecodedIR × Bool)) : DecodedIR :=
  if segs.length = 0 then DecodedIR.empty
  else if winnerIndex ((buildGroups segs).map (·.count)) = -1 then DecodedIR.empty
  else ((buildGroups segs).getD
    (winnerIndex ((buildGroups segs).map (·.count))).toNat
    { data := DecodedIR.empty }).data

/-! ## Burst analysis (`IRReceiver::_analyzeAndDecodeBurst`) -/

/-- Decode segments for the winning brand and vote; the boolean result is the
`m_codeResultIsReady` flag, set exactly when the voted frame has a known brand
and a command different from `-1`. -/
def decodeAndVote (winner : RemoteBrand) (pairs : List PulseSpacePair) :
    DecodedIR × Bool :=
  if 0 < (decodeSegments winner pairs).length then
    (determineWinner (decodeSegments winner pairs),
      decide ((determineWinner (decodeSegments winner pairs)).brand ≠ RemoteBrand.UNKNOWN ∧
        (determineWinner (decodeSegments winner pairs)).command ≠ -1))
  else (DecodedIR.empty, false)

/-- Source `IRReceiver::_analyzeAndDecodeBurst` as a function from the extracted
pulse/space pairs to `(m_finalResultCode, m_codeResultIsReady)`. -/
def analyzeAndDecodeBurst (pairs : List PulseSpacePair) : DecodedIR × Bool :=
  if pairs.length = 0 then (DecodedIR.empty, false)
  else if selectWinningBrand (scoreJVC pairs) (scoreSonySIRC12 pairs) (scoreNEC pairs) =
      RemoteBrand.UNKNOWN then
    (DecodedIR.empty, false)
  else
    decodeAndVote
      (selectWinningBrand (scoreJVC pairs) (scoreSonySIRC12 pairs) (scoreNEC pairs))
      pairs

/-! ## Session state machine (`begin` / `enable` / `disable` / `isCode` /
`getCode`) -/

/-- The persistent session fields of the `IRReceiver` object.
`rawTransitions` models `m_rawTransitions[0..m_rawTransitionIndex)`. -/
structure IRState where
  irPin : Int
  rawTransitions : List Nat
  lastTransitionMillis : Nat
  lastPinState : Bool
  rawBurstCopied : Bool
  pulseSpacePairs : List PulseSpacePair
  finalResultCode : DecodedIR
  codeResultIsReady : Bool
  isInterruptAttached : Bool
deriving DecidableEq, Repr

/-- The constructor `IRReceiver::IRReceiver()`. -/
def initialState : IRState :=
  { irPin := -1
    rawTransitions := []
    lastTransitionMillis := 0
    lastPinState := true
    rawBurstCopied := false
    pulseSpacePairs := []
    finalResultCode := DecodedIR.empty
    codeResultIsReady := false
    isInterruptAttached := false }

/-- Source `IRReceiver::enable`.  Here `pinLevel` is the `digitalRead` result, `nowMillis`
the `millis()` reading and `canAttach` whether `digitalPinToInterrupt` reports
an interrupt-capable pin. -/
def enable (s : IRState) (pinLevel : Bool) (nowMillis : Nat) (canAttach : Bool) :
    IRState :=
  if s.irPin = -1 then s
  else
    { s with
      lastPinState := pinLevel
      lastTransitionMillis := nowMillis
      codeResultIsReady := false
      rawBurstCopied := false
      rawTransitions := []
      isInterruptAttached := canAttach }

/-- Source `IRReceiver::disable`: a no-op when not initialised or not attached;
otherwise detaches and clears the in-flight buffer, the burst-copied flag and
the result-ready flag. -/
def disable (s : IRState) : IRState :=
  if s.irPin = -1 ∨ s.isInterruptAttached = false then s
  else
    { s with
      isInterruptAttached := false
      rawTransitions := []
      rawBurstCopied := false
      codeResultIsReady := false }

/-- Source `IRReceiver::begin`: re-`disable` if already attached, set the pin, then
`enable`; reports failure when the interrupt could not be attached. -/
def beginOn (s : IRState) (pin : Int) (pinLevel : Bool) (nowMillis : Nat)
    (canAttach : Bool) : Bool × IRState :=
  let s0 := if s.isInterruptAttached = true ∧ s.irPin ≠ -1 then disable s else s
  let s1 := { s0 with irPin := pin }
  let s2 := enable s1 pinLevel nowMillis canAttach
  (!decide (s2.isInterruptAttached = false ∧ s2.irPin ≠ -1), s2)

/-- Source `IRReceiver::getCode`: consume and return the pending result, or the
default `DecodedIR()` when none is pending. -/
def getCode (s : IRState) : DecodedIR × IRState :=
  if s.codeResultIsReady then
    (s.finalResultCode, { s with codeResultIsReady := false })
  else (DecodedIR.empty, s)

/-- Source `IRReceiver::isCode` (with `nowMillis` the `millis()` reading): reports a
pending result, otherwise drains a burst whose idle timeout has elapsed and
runs the analysis pipeline on it. -/
def isCode (s : IRState) (nowMillis : Nat) : Bool × IRState :=
  if s.isInterruptAttached = false then
    (s.codeResultIsReady, s)
  else if s.codeResultIsReady then (true, s)
  else if 0 < s.rawTransitions.length ∧
      nowMillis - s.lastTransitionMillis > IR_LIB_IDLE_TIMEOUT_MS ∧
      s.rawBurstCopied = false then
    let pairs := processRawTransitionsToPairs (s.rawTransitions.take IR_LIB_MAX_TRANSITIONS)
    let s1 := { s with
      rawTransitions := []
      rawBurstCopied := true
      pulseSpacePairs := pairs }
    if 0 < pairs.length then
      let r := analyzeAndDecodeBurst pairs
      (r.2, { s1 with finalResultCode := r.1, codeResultIsReady := r.2 })
    else (false, { s1 with rawBurstCopied := false })
  else if s.rawTransitions.length = 0 ∧ s.rawBurstCopied = true then
    (false, { s with rawBurstCopied := false })
  else (false, s)

/-- The invariant of claim C7: whenever the result-ready flag is set, the
stored final result has a known brand and a command different from `-1`. -/
def ResultInv (s : IRState) : Prop :=
  s.codeResultIsReady = true →
    s.finalResultCode.brand ≠ RemoteBrand.UNKNOWN ∧ s.finalResultCode.command ≠ -1

instance (s : IRState) : Decidable (ResultInv s) :=
  inferInstanceAs (Decidable (_ → _))

/-! ## Helper lemmas -/

lemma analyzeAndDecodeBurst_valid (pairs : List PulseSpacePair)
    (h : (analyzeAndDecodeBurst pairs).2 = true) :
    (analyzeAndDecodeBurst pairs).1.brand ≠ RemoteBrand.UNKNOWN ∧
    (analyzeAndDecodeBurst pairs).1.command ≠ -1 := by
  unfold analyzeAndDecodeBurst at h ⊢
  split_ifs at h ⊢ with h1 h2
  unfold decodeAndVote at h ⊢
  split_ifs at h ⊢ with h3
  simpa using h

lemma ResultInv_enable (s : IRState) (lvl : Bool) (now : Nat) (att : Bool)
    (_ : ResultInv s) : ResultInv (enable s lvl now att) := by
  unfold enable
  split_ifs with h1
  · intro hr
    exact ‹ResultInv s› hr
  · intro hr
    simp at hr

lemma ResultInv_disable (s : IRState) (h : ResultInv s) : ResultInv (disable s) := by
  unfold disable
  split_ifs with h1
  · exact h
  · intro hr
    simp at hr

lemma ResultInv_beginOn (s : IRState) (pin : Int) (lvl : Bool) (now : Nat)
    (att : Bool) (h : ResultInv s) : ResultInv (beginOn s pin lvl now att).2 := by
  unfold beginOn
  apply ResultInv_enable
  intro hr
  dsimp only at hr ⊢
  split_ifs at hr ⊢ with h1
  · exact (ResultInv_disable s h) hr
  · exact h hr

lemma ResultInv_getCode (s : IRState) (h : ResultInv s) : ResultInv (getCode s).2 := by
  unfold getCode
  split_ifs with h1
  · intro hr
    simp at hr
  · exact h

lemma ResultInv_isCode (s : IRState) (now : Nat) (h : ResultInv s) :
    ResultInv (isCode s now).2 := by
  simp only [isCode]
  split_ifs with h1 h2 h3 h4
  · exact h
  · exact h
  · intro hr
    dsimp only at hr ⊢
    exact analyzeAndDecodeBurst_valid _ hr
  · intro hr
    simp at hr
    exact absurd hr h2
  · intro hr
    simp at hr
    exact absurd hr h2
  · exact h

/-! ## Claim theorems -/

/-- C6: for all 31-bit timestamps `prev` and `next`, the delta computed by the
pair extractor (`next - prev` when `next ≥ prev`, otherwise
`(TIME_VALUE_MASK - prev) + next + 1`) equals the true elapsed time
`next - prev` modulo `2^31`, so it is correct across the 31-bit wraparound
boundary. -/
theorem computeDelta_correct_mod (prev next : Nat)
    (hp : prev < 2 ^ 31) (hn : next < 2 ^ 31) :
    (computeDelta prev next : Int) = ((next : Int) - (prev : Int)) % 2 ^ 31 := by
  have hm : ((2 : Int) ^ 31) = 2147483648 := by norm_num
  unfold computeDelta TIME_VALUE_MASK
  rw [hm]
  split_ifs with h
  · omega
  · omega

/-- Witness for C6 at a concrete wraparound: `prev = 2147483640`,
`next = 100`. -/
theorem computeDelta_correct_mod_witness :
    2147483640 < 2 ^ 31 ∧ 100 < 2 ^ 31 ∧
    (computeDelta 2147483640 100 : Int) = ((100 : Int) - 2147483640) % 2 ^ 31 :=
  ⟨by norm_num, by norm_num,
    computeDelta_correct_mod 2147483640 100 (by norm_num) (by norm_num)⟩

/-- C8: both tolerance checks accept a captured value exactly at the boundary
and reject one microsecond beyond it: the absolute check accepts
`expected + tolerance` and rejects `expected + tolerance + 1`; the percentage
check accepts `expected + expected*pct` and rejects
`expected + expected*pct + 1` (stated for any integral boundary offset `d`
with `d = expected * pct`). -/
theorem tolerance_boundary_strict (expected tolerance d : Int) (pct : ℚ)
    (htol : 0 ≤ tolerance) (hexp : 0 ≤ expected) (hpct : 0 ≤ pct)
    (hd : (d : ℚ) = (expected : ℚ) * pct) :
    isWithinTolerance (expected + tolerance) expected tolerance ∧
    ¬ isWithinTolerance (expected + tolerance + 1) expected tolerance ∧
    isWithinPercentageTolerance (expected + d) expected pct ∧
    ¬ isWithinPercentageTolerance (expected + d + 1) expected pct := by
  have hd0 : 0 ≤ d := by
    have h1 : (0 : ℚ) ≤ (d : ℚ) := by
      rw [hd]
      exact mul_nonneg (by exact_mod_cast hexp) hpct
    exact_mod_cast h1
  refine ⟨?_, ?_, ?_, ?_⟩
  · unfold isWithinTolerance
    rw [show expected + tolerance - expected = tolerance by ring,
      abs_of_nonneg htol]
  · unfold isWithinTolerance
    rw [show expected + tolerance + 1 - expected = tolerance + 1 by ring,
      abs_of_nonneg (by omega)]
    omega
  · unfold isWithinPercentageTolerance
    split_ifs with h0
    · have hdz : (d : ℚ) = 0 := by rw [hd, h0]; norm_num
      have : d = 0 := by exact_mod_cast hdz
      omega
    · rw [show expected + d - expected = d by ring, abs_of_nonneg hd0, hd]
  · unfold isWithinPercentageTolerance
    split_ifs with h0
    · have hdz : (d : ℚ) = 0 := by rw [hd, h0]; norm_num
      have : d = 0 := by exact_mod_cast hdz
      omega
    · rw [show expected + d + 1 - expected = d + 1 by ring,
        abs_of_nonneg (by omega)]
      intro hc
      rw [← hd] at hc
      have : ((d + 1 : Int) : ℚ) ≤ (d : ℚ) := hc
      have : (d : ℚ) + 1 ≤ (d : ℚ) := by push_cast at this; linarith
      linarith

/-- Witness for C8 at `expected = 600`, `tolerance = 200`, `pct = 1/10`
(boundary offset `d = 60`). -/
theorem tolerance_boundary_strict_witness :
    isWithinTolerance 800 600 200 ∧
    ¬ isWithinTolerance 801 600 200 ∧
    isWithinPercentageTolerance 660 600 (1/10) ∧
    ¬ isWithinPercentageTolerance 661 600 (1/10) := by
  have h := tolerance_boundary_strict 600 200 60 (1/10)
    (by norm_num) (by norm_num) (by norm_num) (by norm_num)
  exact ⟨h.1, h.2.1, by exact_mod_cast h.2.2.1, by exact_mod_cast h.2.2.2⟩

/-- C5: `getCode` consumes the pending result.  When a result is ready, the
first call returns the stored final result and clears the ready flag, a
second call (with no new burst in between) returns the empty value and leaves
the state unchanged; when no result is pending, `getCode` returns the empty
value and changes nothing.  The empty value has unknown brand, command `-1`
and address `-1`. -/
theorem getCode_consumes_pending (s : IRState) :
    (s.codeResultIsReady = true →
      (getCode s).1 = s.finalResultCode ∧
      ((getCode s).2).codeResultIsReady = false ∧
      (getCode ((getCode s).2)).1 = DecodedIR.empty ∧
      (getCode ((getCode s).2)).2 = (getCode s).2) ∧
    (s.codeResultIsReady = false →
      (getCode s).1 = DecodedIR.empty ∧ (getCode s).2 = s) ∧
    DecodedIR.empty =
      { brand := RemoteBrand.UNKNOWN, command := -1, address := -1 } := by
  refine ⟨fun h => ?_, fun h => ?_, rfl⟩
  · unfold getCode
    simp [h]
  · unfold getCode
    simp [h]

/-- A session state with a pending decoded result, used to instantiate the
state-machine theorems. -/
def sampleReadyState : IRState :=
  { irPin := 4
    rawTransitions := []
    lastTransitionMillis := 0
    lastPinState := false
    rawBurstCopied := false
    pulseSpacePairs := []
    finalResultCode := { brand := RemoteBrand.NEC, command := 12, address := 0 }
    codeResultIsReady := true
    isInterruptAttached := true }

/-- Witness for C5 at `sampleReadyState`. -/
theorem getCode_consumes_pending_witness :
    (getCode sampleReadyState).1 = sampleReadyState.finalResultCode ∧
    (getCode ((getCode sampleReadyState).2)).1 = DecodedIR.empty :=
  ⟨((getCode_consumes_pending sampleReadyState).1 rfl).1,
   ((getCode_consumes_pending sampleReadyState).1 rfl).2.2.1⟩

/-- C3 (divergence witness): the source of `disable()` clears
`m_codeResultIsReady`, so a pending result does NOT remain retrievable across
`disable()`: starting from a state with a pending result, after `disable` the
ready flag is cleared, `isCode` returns `false` and `getCode` returns the
empty value instead of the pending frame. -/
theorem disable_discards_pending_result :
    sampleReadyState.codeResultIsReady = true ∧
    (disable sampleReadyState).codeResultIsReady = false ∧
    (isCode (disable sampleReadyState) 0).1 = false ∧
    (getCode (disable sampleReadyState)).1 = DecodedIR.empty ∧
    DecodedIR.empty ≠ sampleReadyState.finalResultCode := by
  decide

/-- C7: the final-result validity invariant (result-ready implies the stored
final result has a known brand and command ≠ -1) holds in the initial state
and is preserved by every public operation of the session state machine. -/
theorem finalResult_validity_invariant :
    ResultInv initialState ∧
    (∀ s pin lvl now att, ResultInv s → ResultInv (beginOn s pin lvl now att).2) ∧
    (∀ s lvl now att, ResultInv s → ResultInv (enable s lvl now att)) ∧
    (∀ s, ResultInv s → ResultInv (disable s)) ∧
    (∀ s now, ResultInv s → ResultInv (isCode s now).2) ∧
    (∀ s, ResultInv s → ResultInv (getCode s).2) :=
  ⟨by decide,
   fun s pin lvl now att h => ResultInv_beginOn s pin lvl now att h,
   fun s lvl now att h => ResultInv_enable s lvl now att h,
   fun s h => ResultInv_disable s h,
   fun s now h => ResultInv_isCode s now h,
   fun s h => ResultInv_getCode s h⟩

/-- Witness for C7: the invariant propagated through `getCode` from the
initial state. -/
theorem finalResult_validity_invariant_witness :
    ResultInv (getCode initialState).2 :=
  finalResult_validity_invariant.2.2.2.2.2 initialState (by decide)

/-- Each segment-end append grows the decoded-segment list by at most one. -/
lemma segAppend_length_le (winner : RemoteBrand) (pairs : List PulseSpacePair)
    (start dataStart i : Nat) (acc : List (DecodedIR × Bool)) :
    (segAppend winner pairs start dataStart i acc).length ≤ acc.length + 1 := by
  unfold segAppend
  dsimp only
  split_ifs <;> simp

/-- Length bound for the decoded-segment loop: each iteration appends at most
one element and only runs while the list is shorter than
`IR_LIB_MAX_DECODED_SEGMENTS`. -/
lemma decodeSegmentsGo_length (winner : RemoteBrand) (pairs : List PulseSpacePair) :
    ∀ (is : List Nat) (start dataStart : Nat) (acc : List (DecodedIR × Bool)),
      acc.length ≤ IR_LIB_MAX_DECODED_SEGMENTS →
      (decodeSegmentsGo winner pairs is start dataStart acc).length ≤
        IR_LIB_MAX_DECODED_SEGMENTS := by
  intro is
  induction is with
  | nil => intro start dataStart acc h; exact h
  | cons i rest ih =>
      intro start dataStart acc h
      unfold decodeSegmentsGo
      split_ifs with h1 h2
      · apply ih
        have hle := segAppend_length_le winner pairs start dataStart i acc
        omega
      · exact ih start dataStart acc h
      · exact h

/-- C9: at most `IR_LIB_MAX_DECODED_SEGMENTS = 10` segments are ever recorded
for voting; moreover once the decoded-segment list has reached 10 entries the
loop stops (it returns the list unchanged, decoding nothing further). -/
theorem decoded_segments_capped (winner : RemoteBrand) (pairs : List PulseSpacePair) :
    (decodeSegments winner pairs).length ≤ IR_LIB_MAX_DECODED_SEGMENTS ∧
    (∀ (is : List Nat) (start dataStart : Nat) (acc : List (DecodedIR × Bool)),
      IR_LIB_MAX_DECODED_SEGMENTS ≤ acc.length →
      decodeSegmentsGo winner pairs is start dataStart acc = acc) := by
  constructor
  · unfold decodeSegments
    apply decodeSegmentsGo_length
    simp
  · intro is start dataStart acc h
    cases is with
    | nil => rfl
    | cons i rest =>
        unfold decodeSegmentsGo
        rw [if_neg (by omega)]

/-- Witness for C9: the cap theorem instantiated on a full 10-element decoded
list. -/
theorem decoded_segments_capped_witness :
    (decodeSegments RemoteBrand.NEC []).length ≤ IR_LIB_MAX_DECODED_SEGMENTS ∧
    decodeSegmentsGo RemoteBrand.NEC [] [0, 1, 2] 0 0
        (List.replicate 10 (DecodedIR.empty, false)) =
      List.replicate 10 (DecodedIR.empty, false) :=
  ⟨(decoded_segments_capped RemoteBrand.NEC []).1,
   (decoded_segments_capped RemoteBrand.NEC []).2 [0, 1, 2] 0 0 _ (by decide)⟩

/-- A 17-pair burst of identical `(563, 526)` pairs: JVC scores 1 (data-pair
count close to 16) and NEC scores 1 (fixed-marks structure), a nonzero tie. -/
def pairsTie : List PulseSpacePair := List.replicate 17 ⟨563, 526⟩

/-- C1 counterexample: on `pairsTie` the maximum score (1) is shared by JVC
and NEC, yet the burst is NOT discarded — JVC (the earlier enum index) is
selected, its segments are decoded and voted, and a result is produced. -/
theorem score_tie_is_not_discarded :
    scoreJVC pairsTie = 1 ∧ scoreSonySIRC12 pairsTie = 0 ∧ scoreNEC pairsTie = 1 ∧
    selectWinningBrand (scoreJVC pairsTie) (scoreSonySIRC12 pairsTie)
      (scoreNEC pairsTie) = RemoteBrand.JVC ∧
    analyzeAndDecodeBurst pairsTie =
      ({ brand := RemoteBrand.JVC, command := 0, address := 0 }, true) := by
  decide

/-- C1 amended: the winner is the first protocol in the fixed order JVC, SONY,
NEC whose score equals the maximum, provided that maximum is nonzero (a
nonzero tie is resolved in favour of the earlier-ordered protocol, not
discarded); only when the maximum score is zero is no protocol identified, and
then the burst is discarded with no segment decoding, voting or result
production. -/
theorem winning_brand_selection (sJVC sSONY sNEC : Int)
    (pairs : List PulseSpacePair) :
    (0 < sJVC → sSONY ≤ sJVC → sNEC ≤ sJVC →
      selectWinningBrand sJVC sSONY sNEC = RemoteBrand.JVC) ∧
    (0 < sSONY → sJVC < sSONY → sNEC ≤ sSONY →
      selectWinningBrand sJVC sSONY sNEC = RemoteBrand.SONY) ∧
    (0 < sNEC → sJVC < sNEC → sSONY < sNEC →
      selectWinningBrand sJVC sSONY sNEC = RemoteBrand.NEC) ∧
    (sJVC ≤ 0 → sSONY ≤ 0 → sNEC ≤ 0 →
      selectWinningBrand sJVC sSONY sNEC = RemoteBrand.UNKNOWN) ∧
    (selectWinningBrand (scoreJVC pairs) (scoreSonySIRC12 pairs) (scoreNEC pairs) =
        RemoteBrand.UNKNOWN →
      analyzeAndDecodeBurst pairs = (DecodedIR.empty, false)) := by
  refine ⟨?_, ?_, ?_, ?_, ?_⟩
  · intro h1 h2 h3
    unfold selectWinningBrand selectFinal selectStep
    dsimp only
    split_ifs <;> first | rfl | (exfalso; omega)
  · intro h1 h2 h3
    unfold selectWinningBrand selectFinal selectStep
    dsimp only
    split_ifs <;> first | rfl | (exfalso; omega)
  · intro h1 h2 h3
    unfold selectWinningBrand selectFinal selectStep
    dsimp only
    split_ifs <;> first | rfl | (exfalso; omega)
  · intro h1 h2 h3
    unfold selectWinningBrand selectFinal selectStep
    dsimp only
    split_ifs <;> first | rfl | (exfalso; omega)
  · intro h
    unfold analyzeAndDecodeBurst
    split_ifs with h1
    · rfl
    · rfl

/-- Witness for the amended C1 at concrete score values and the empty burst. -/
theorem winning_brand_selection_witness :
    selectWinningBrand 2 1 0 = RemoteBrand.JVC ∧
    selectWinningBrand 0 0 0 = RemoteBrand.UNKNOWN ∧
    analyzeAndDecodeBurst [] = (DecodedIR.empty, false) :=
  ⟨(winning_brand_selection 2 1 0 []).1 (by decide) (by decide) (by decide),
   (winning_brand_selection 0 0 0 []).2.2.2.1 (by decide) (by decide) (by decide),
   (winning_brand_selection 0 0 0 []).2.2.2.2 (by decide)⟩

/-- C4: two decoded NEC segments with identical brand, command and address but
opposite checksum-valid flags land in two distinct voting groups (never
merged), while for any non-NEC brand the grouping ignores the checksum flag
entirely (the two segments merge into a single group of count 2). -/
theorem nec_checksum_separates_voting_groups (d : DecodedIR) (c : Bool)
    (hb : d.brand = RemoteBrand.NEC) (hc : d.command ≠ -1) :
    buildGroups [(d, c), (d, !c)] =
      [{ data := d, count := 1, checksumValidForNEC := c },
       { data := d, count := 1, checksumValidForNEC := !c }] ∧
    (∀ (e : DecodedIR) (c1 c2 : Bool), e.brand ≠ RemoteBrand.NEC →
      e.brand ≠ RemoteBrand.UNKNOWN → e.command ≠ -1 →
      buildGroups [(e, c1), (e, c2)] =
        [{ data := e, count := 2, checksumValidForNEC := false }]) := by
  constructor
  · have hbU : d.brand ≠ RemoteBrand.UNKNOWN := by
      rw [hb]; exact fun hcon => RemoteBrand.noConfusion hcon
    have step1 : addSegment [] d c =
        [{ data := d, count := 1, checksumValidForNEC := c }] := by
      unfold addSegment bumpFirst
      rw [if_pos ⟨hbU, hc⟩]
      simp [hb, IR_LIB_MAX_DECODED_SEGMENTS]
    show addSegment (addSegment [] d c) d (!c) = _
    rw [step1]
    unfold addSegment bumpFirst
    rw [if_pos ⟨hbU, hc⟩]
    have hnm : ¬ GroupMatch d (!c)
        { data := d, count := 1, checksumValidForNEC := c } := by
      intro hm
      have h2 := hm.2 hb
      simp at h2
    rw [if_neg hnm]
    simp [hb, IR_LIB_MAX_DECODED_SEGMENTS, bumpFirst]
  · intro e c1 c2 hne hbU2 hc2
    have step1 : addSegment [] e c1 =
        [{ data := e, count := 1, checksumValidForNEC := false }] := by
      unfold addSegment bumpFirst
      rw [if_pos ⟨hbU2, hc2⟩]
      simp [hne, IR_LIB_MAX_DECODED_SEGMENTS]
    show addSegment (addSegment [] e c1) e c2 = _
    rw [step1]
    have hm : GroupMatch e c2 { data := e, count := 1, checksumValidForNEC := false } :=
      ⟨⟨rfl, rfl, rfl⟩, fun hcon => absurd hcon hne⟩
    unfold addSegment bumpFirst
    rw [if_pos ⟨hbU2, hc2⟩, if_pos hm]
    norm_num

/-- Witness for C4 at a concrete NEC frame and a concrete JVC frame. -/
theorem nec_checksum_separates_voting_groups_witness :
    buildGroups
        [({ brand := RemoteBrand.NEC, command := 12, address := 0 }, true),
         ({ brand := RemoteBrand.NEC, command := 12, address := 0 }, !true)] =
      [{ data := { brand := RemoteBrand.NEC, command := 12, address := 0 },
         count := 1, checksumValidForNEC := true },
       { data := { brand := RemoteBrand.NEC, command := 12, address := 0 },
         count := 1, checksumValidForNEC := !true }] ∧
    buildGroups
        [({ brand := RemoteBrand.JVC, command := 3, address := 4 }, true),
         ({ brand := RemoteBrand.JVC, command := 3, address := 4 }, false)] =
      [{ data := { brand := RemoteBrand.JVC, command := 3, address := 4 },
         count := 2, checksumValidForNEC := false }] :=
  ⟨(nec_checksum_separates_voting_groups
      { brand := RemoteBrand.NEC, command := 12, address := 0 } true rfl
      (by decide)).1,
   (nec_checksum_separates_voting_groups
      { brand := RemoteBrand.NEC, command := 12, address := 0 } true rfl
      (by decide)).2
     { brand := RemoteBrand.JVC, command := 3, address := 4 } true false
     (by decide) (by decide) (by decide)⟩

/-- C10: an NEC segment whose bit loop yields at least 24 but fewer than 32
bits decodes to a frame whose command is the first command byte
(`(rawBits >> 16) & 0xFF`, in particular ≠ -1, so the frame enters voting),
whose address follows the address-byte collapse rule, and whose
checksum-valid flag is `false` (the second command byte was never seen); in
voting such a frame matches groups whose NEC checksum state is `false`
(full 32-bit decodes with failed checksum) and never matches checksum-valid
groups of the same value. -/
theorem nec_short_decode_groups_with_invalid (dataPairs : List PulseSpacePair)
    (h24 : 24 ≤ (necBitLoop dataPairs 0 0).2)
    (h32 : (necBitLoop dataPairs 0 0).2 < 32) :
    (decodeNECData dataPairs).2 = false ∧
    (decodeNECData dataPairs).1.brand = RemoteBrand.NEC ∧
    (decodeNECData dataPairs).1.command =
      ((((necBitLoop dataPairs 0 0).1 >>> 16) &&& 0xFF : Nat) : Int) ∧
    (decodeNECData dataPairs).1.command ≠ -1 ∧
    (decodeNECData dataPairs).1.address =
      (if (((((necBitLoop dataPairs 0 0).1 >>> 0) &&& 0xFF : Nat) : Int) +
            ((((necBitLoop dataPairs 0 0).1 >>> 8) &&& 0xFF : Nat) : Int)) % 256 = 0xFF
       then ((((necBitLoop dataPairs 0 0).1 >>> 0) &&& 0xFF : Nat) : Int)
       else ((((necBitLoop dataPairs 0 0).1 >>> 8) &&& 0xFF : Nat) : Int) * 256 +
         ((((necBitLoop dataPairs 0 0).1 >>> 0) &&& 0xFF : Nat) : Int)) ∧
    (∀ cnt : Int,
      GroupMatch (decodeNECData dataPairs).1 (decodeNECData dataPairs).2
        { data := (decodeNECData dataPairs).1, count := cnt,
          checksumValidForNEC := false } ∧
      ¬ GroupMatch (decodeNECData dataPairs).1 (decodeNECData dataPairs).2
        { data := (decodeNECData dataPairs).1, count := cnt,
          checksumValidForNEC := true }) := by
  have hEq : decodeNECData dataPairs =
      necFields (necBitLoop dataPairs 0 0).1 (necBitLoop dataPairs 0 0).2 := rfl
  rw [hEq]
  set R := (necBitLoop dataPairs 0 0).1 with hR
  set B := (necBitLoop dataPairs 0 0).2 with hB
  have hc1 : necCommandByte1 R B = (((R >>> 16) &&& 0xFF : Nat) : Int) := by
    unfold necCommandByte1
    rw [if_pos (show B ≥ 24 by omega)]
  have hc2 : necCommandByte2 R B = -1 := by
    unfold necCommandByte2
    rw [if_neg (show ¬ B ≥ 32 by omega)]
  have ha1 : necAddressByte1 R B = (((R >>> 0) &&& 0xFF : Nat) : Int) := by
    unfold necAddressByte1
    rw [if_pos (show B ≥ 8 by omega)]
  have ha2 : necAddressByte2 R B = (((R >>> 8) &&& 0xFF : Nat) : Int) := by
    unfold necAddressByte2
    rw [if_pos (show B ≥ 16 by omega)]
  have hchk : (necFields R B).2 = false := by
    unfold necFields
    exact if_neg (fun hcon => hcon.2.1 hc2)
  have hcmd : (necFields R B).1.command = (((R >>> 16) &&& 0xFF : Nat) : Int) := by
    unfold necFields
    dsimp only
    rw [if_pos (show necCommandByte1 R B ≠ -1 by rw [hc1]; omega), hc1]
  have haddr : necAddress R B =
      (if ((((R >>> 0) &&& 0xFF : Nat) : Int) +
            (((R >>> 8) &&& 0xFF : Nat) : Int)) % 256 = 0xFF
       then (((R >>> 0) &&& 0xFF : Nat) : Int)
       else (((R >>> 8) &&& 0xFF : Nat) : Int) * 256 +
         (((R >>> 0) &&& 0xFF : Nat) : Int)) := by
    unfold necAddress
    rw [ha1, ha2]
    by_cases hsum : ((((R >>> 0) &&& 0xFF : Nat) : Int) +
        (((R >>> 8) &&& 0xFF : Nat) : Int)) % 256 = 0xFF
    · rw [if_pos ⟨by omega, by omega, hsum⟩, if_pos hsum]
    · rw [if_neg (fun hcon => hsum hcon.2.2),
        if_pos ⟨(by omega : (((R >>> 0) &&& 0xFF : Nat) : Int) ≠ -1),
          (by omega : (((R >>> 8) &&& 0xFF : Nat) : Int) ≠ -1)⟩, if_neg hsum]
      norm_num
  refine ⟨hchk, rfl, hcmd, ?_, haddr, ?_⟩
  · rw [hcmd]
    omega
  · intro cnt
    constructor
    · exact ⟨⟨rfl, rfl, rfl⟩, fun _ => hchk⟩
    · intro hm
      have h2 := hm.2 rfl
      rw [hchk] at h2
      exact Bool.noConfusion h2

/-- Witness for C10 on a 24-pair all-zero-bit NEC segment (24 bits decoded). -/
theorem nec_short_decode_groups_with_invalid_witness :
    24 ≤ (necBitLoop (List.replicate 24 ⟨563, 563⟩) 0 0).2 ∧
    (necBitLoop (List.replicate 24 ⟨563, 563⟩) 0 0).2 < 32 ∧
    (decodeNECData (List.replicate 24 ⟨563, 563⟩)).2 = false ∧
    (decodeNECData (List.replicate 24 ⟨563, 563⟩)).1.command ≠ -1 :=
  ⟨by decide, by decide,
   (nec_short_decode_groups_with_invalid (List.replicate 24 ⟨563, 563⟩)
     (by decide) (by decide)).1,
   (nec_short_decode_groups_with_invalid (List.replicate 24 ⟨563, 563⟩)
     (by decide) (by decide)).2.2.2.1⟩

/-- Characterisation of the max-count scan: either nothing beat the incoming
`maxC` (the incoming `wi` is returned), or the result is `i + j` for the
first index `j` that attains the strict maximum of the list over `maxC`. -/
lemma winnerIndexAux_spec (cs : List Int) :
    ∀ (i maxC wi : Int),
      (winnerIndexAux cs i maxC wi = wi ∧
        ∀ j, j < cs.length → cs.getD j 0 ≤ maxC) ∨
      (∃ j, j < cs.length ∧
        winnerIndexAux cs i maxC wi = i + (j : Int) ∧
        maxC < cs.getD j 0 ∧
        (∀ k, k < cs.length → cs.getD k 0 ≤ cs.getD j 0) ∧
        (∀ k, k < j → cs.getD k 0 < cs.getD j 0)) := by
  induction cs with
  | nil =>
      intro i maxC wi
      left
      exact ⟨rfl, fun j hj => absurd hj (by simp)⟩
  | cons c cs ih =>
      intro i maxC wi
      unfold winnerIndexAux
      by_cases h : c > maxC
      · rw [if_pos h]
        rcases ih (i + 1) c i with ⟨heq, hall⟩ | ⟨j, hj, heq, hlt, hall, hstrict⟩
        · right
          refine ⟨0, by simp, by rw [heq]; simp, by simpa using h, ?_, ?_⟩
          · intro k hk
            cases k with
            | zero => simp
            | succ k' =>
                simp only [List.getD_cons_succ, List.getD_cons_zero]
                exact hall k' (by simpa using hk)
          · intro k hk
            omega
        · right
          refine ⟨j + 1, by simpa using hj, ?_, ?_, ?_, ?_⟩
          · rw [heq]
            push_cast
            ring
          · simpa using lt_trans h hlt
          · intro k hk
            cases k with
            | zero =>
                simp only [List.getD_cons_succ, List.getD_cons_zero]
                exact le_of_lt hlt
            | succ k' =>
                simp only [List.getD_cons_succ]
                exact hall k' (by simpa using hk)
          · intro k hk
            cases k with
            | zero =>
                simp only [List.getD_cons_succ, List.getD_cons_zero]
                exact hlt
            | succ k' =>
                simp only [List.getD_cons_succ]
                exact hstrict k' (by omega)
      · rw [if_neg h]
        rcases ih (i + 1) maxC wi with ⟨heq, hall⟩ | ⟨j, hj, heq, hlt, hall, hstrict⟩
        · left
          refine ⟨heq, ?_⟩
          intro k hk
          cases k with
          | zero => simpa using le_of_not_lt h
          | succ k' =>
              simp only [List.getD_cons_succ]
              exact hall k' (by simpa using hk)
        · right
          refine ⟨j + 1, by simpa using hj, ?_, ?_, ?_, ?_⟩
          · rw [heq]
            push_cast
            ring
          · simpa using hlt
          · intro k hk
            cases k with
            | zero =>
                simp only [List.getD_cons_succ, List.getD_cons_zero]
                exact le_trans (le_of_not_lt h) (le_of_lt hlt)
            | succ k' =>
                simp only [List.getD_cons_succ]
                exact hall k' (by simpa using hk)
          · intro k hk
            cases k with
            | zero =>
                simp only [List.getD_cons_succ, List.getD_cons_zero]
                exact lt_of_le_of_lt (le_of_not_lt h) hlt
            | succ k' =>
                simp only [List.getD_cons_succ]
                exact hstrict k' (by omega)

/-- A successful `bumpFirst` preserves the "all counts at least 1" property. -/
lemma bumpFirst_counts (seg : DecodedIR) (chk : Bool) :
    ∀ (gs gs' : List DecodedCount), bumpFirst gs seg chk = some gs' →
      (∀ g ∈ gs, 1 ≤ g.count) → ∀ g ∈ gs', 1 ≤ g.count := by
  intro gs
  induction gs with
  | nil =>
      intro gs' h
      simp [bumpFirst] at h
  | cons g0 rest ih =>
      intro gs' h hall
      unfold bumpFirst at h
      split_ifs at h with hm
      · obtain rfl : ({ g0 with count := g0.count + 1 } :: rest) = gs' :=
          Option.some.inj h
        intro g hg
        rcases List.mem_cons.mp hg with rfl | hmem
        · have := hall g0 (List.mem_cons_self g0 rest)
          simp only
          omega
        · exact hall g (List.mem_cons_of_mem _ hmem)
      · cases hb : bumpFirst rest seg chk with
        | none => rw [hb] at h; exact absurd h (by simp)
        | some gs'' =>
            rw [hb] at h
            obtain rfl : (g0 :: gs'') = gs' := Option.some.inj h
            intro g hg
            rcases List.mem_cons.mp hg with rfl | hmem
            · exact hall g (List.mem_cons_self g rest)
            · exact ih gs'' hb (fun g' hg' => hall g' (List.mem_cons_of_mem _ hg')) g hmem

/-- Adding a segment preserves the "all counts at least 1" property. -/
lemma addSegment_counts (gs : List DecodedCount) (seg : DecodedIR) (chk : Bool)
    (hall : ∀ g ∈ gs, 1 ≤ g.count) : ∀ g ∈ addSegment gs seg chk, 1 ≤ g.count := by
  unfold addSegment
  by_cases hv : seg.brand ≠ RemoteBrand.UNKNOWN ∧ seg.command ≠ -1
  · rw [if_pos hv]
    cases hb : bumpFirst gs seg chk with
    | some gs' => exact bumpFirst_counts seg chk gs gs' hb hall
    | none =>
        by_cases hlen : gs.length < IR_LIB_MAX_DECODED_SEGMENTS
        · rw [if_pos hlen]
          intro g hg
          rcases List.mem_append.mp hg with h1 | h2
          · exact hall g h1
          · simp only [List.mem_singleton] at h2
            subst h2
            simp
        · rw [if_neg hlen]
          exact hall
  · rw [if_neg hv]
    exact hall

/-- Every group that voting builds has a count of at least 1. -/
lemma buildGroups_counts (segs : List (DecodedIR × Bool)) :
    ∀ g ∈ buildGroups segs, 1 ≤ g.count := by
  unfold buildGroups
  have haux : ∀ (l : List (DecodedIR × Bool)) (gs : List DecodedCount),
      (∀ g ∈ gs, 1 ≤ g.count) →
      ∀ g ∈ List.foldl (fun gs p => addSegment gs p.1 p.2) gs l, 1 ≤ g.count := by
    intro l
    induction l with
    | nil => intro gs h; simpa using h
    | cons p rest ih =>
        intro gs h
        exact ih _ (addSegment_counts gs p.1 p.2 h)
  exact haux segs [] (by simp)

/-- A successful `bumpFirst` does not change the number of groups. -/
lemma bumpFirst_length (seg : DecodedIR) (chk : Bool) :
    ∀ (gs gs' : List DecodedCount), bumpFirst gs seg chk = some gs' →
      gs'.length = gs.length := by
  intro gs
  induction gs with
  | nil => intro gs' h; simp [bumpFirst] at h
  | cons g0 rest ih =>
      intro gs' h
      unfold bumpFirst at h
      split_ifs at h with hm
      · obtain rfl := Option.some.inj h
        simp
      · cases hb : bumpFirst rest seg chk with
        | none => rw [hb] at h; exact absurd h (by simp)
        | some gs'' =>
            rw [hb] at h
            obtain rfl := Option.some.inj h
            simp [ih gs'' hb]

/-- Adding a segment never shrinks the group list. -/
lemma addSegment_length (gs : List DecodedCount) (seg : DecodedIR) (chk : Bool) :
    gs.length ≤ (addSegment gs seg chk).length := by
  unfold addSegment
  by_cases hv : seg.brand ≠ RemoteBrand.UNKNOWN ∧ seg.command ≠ -1
  · rw [if_pos hv]
    cases hb : bumpFirst gs seg chk with
    | some gs' => rw [bumpFirst_length seg chk gs gs' hb]
    | none =>
        by_cases hlen : gs.length < IR_LIB_MAX_DECODED_SEGMENTS
        · rw [if_pos hlen]
          simp
        · rw [if_neg hlen]
  · rw [if_neg hv]

/-- For a nonempty segment list whose head is a valid decode, voting builds at
least one group. -/
lemma buildGroups_ne_nil (segs : List (DecodedIR × Bool)) (hne : segs ≠ [])
    (hval : ∀ p ∈ segs, p.1.brand ≠ RemoteBrand.UNKNOWN ∧ p.1.command ≠ -1) :
    0 < (buildGroups segs).length := by
  have haux : ∀ (l : List (DecodedIR × Bool)) (gs : List DecodedCount),
      gs.length ≤ (List.foldl (fun gs p => addSegment gs p.1 p.2) gs l).length := by
    intro l
    induction l with
    | nil => intro gs; exact le_refl _
    | cons p rest ih =>
        intro gs
        exact le_trans (addSegment_length gs p.1 p.2) (ih _)
  obtain ⟨p, rest, rfl⟩ := List.exists_cons_of_ne_nil hne
  have hp := hval p (List.mem_cons_self p rest)
  have h1 : (addSegment [] p.1 p.2).length = 1 := by
    unfold addSegment
    rw [if_pos hp]
    simp [bumpFirst, IR_LIB_MAX_DECODED_SEGMENTS]
  unfold buildGroups
  calc 0 < (addSegment [] p.1 p.2).length := by omega
    _ ≤ _ := haux rest (addSegment [] p.1 p.2)

/-- Indexing the count list is indexing the group list. -/
lemma map_count_getD (gs : List DecodedCount) :
    ∀ j, j < gs.length →
      (gs.map (·.count)).getD j 0 =
        (gs.getD j { data := DecodedIR.empty }).count := by
  induction gs with
  | nil => intro j hj; simp at hj
  | cons g rest ih =>
      intro j hj
      cases j with
      | zero => simp
      | succ j' =>
          simp only [List.map_cons, List.getD_cons_succ]
          exact ih j' (by simpa using hj)

/-- C2: for every nonempty list of decoded segments that are all valid
(brand known, command ≠ -1), the frame chosen by `determineWinner` is the
`data` of a voting group whose count is maximal among all groups and strictly
greater than the count of every earlier group (so the first group to reach the
maximum wins, and ties with later groups are kept, not re-broken); in
particular three segments with values A, A, B (A ≠ B) always elect A. -/
theorem voting_selects_majority_group (segs : List (DecodedIR × Bool))
    (hne : segs ≠ [])
    (hval : ∀ p ∈ segs, p.1.brand ≠ RemoteBrand.UNKNOWN ∧ p.1.command ≠ -1) :
    (∃ i, i < (buildGroups segs).length ∧
      determineWinner segs =
        ((buildGroups segs).getD i { data := DecodedIR.empty }).data ∧
      (∀ j, j < (buildGroups segs).length →
        ((buildGroups segs).getD j { data := DecodedIR.empty }).count ≤
          ((buildGroups segs).getD i { data := DecodedIR.empty }).count) ∧
      (∀ j, j < i →
        ((buildGroups segs).getD j { data := DecodedIR.empty }).count <
          ((buildGroups segs).getD i { data := DecodedIR.empty }).count)) ∧
    (∀ (A B : DecodedIR) (cA cB : Bool),
      A.brand ≠ RemoteBrand.UNKNOWN → A.command ≠ -1 →
      B.brand ≠ RemoteBrand.UNKNOWN → B.command ≠ -1 → A ≠ B →
      determineWinner [(A, cA), (A, cA), (B, cB)] = A) := by
  constructor
  · have hlen : 0 < (buildGroups segs).length := buildGroups_ne_nil segs hne hval
    have hcounts := buildGroups_counts segs
    have hlensegs : ¬ segs.length = 0 := by
      cases segs with
      | nil => exact absurd rfl hne
      | cons a l => simp
    rcases winnerIndexAux_spec ((buildGroups segs).map (·.count)) 0 0 (-1) with
      ⟨heq, hall⟩ | ⟨j, hj, heq, hmax, hall, hstrict⟩
    · exfalso
      have h0 : ((buildGroups segs).map (·.count)).getD 0 0 ≤ 0 :=
        hall 0 (by simpa using hlen)
      rw [map_count_getD _ 0 hlen] at h0
      have hmem : (buildGroups segs).getD 0 { data := DecodedIR.empty } ∈
          buildGroups segs := by
        rw [List.getD_eq_getElem _ _ hlen]
        exact List.getElem_mem hlen
      have h1 := hcounts _ hmem
      omega
    · have hjlen : j < (buildGroups segs).length := by simpa using hj
      have hwi : winnerIndex ((buildGroups segs).map (·.count)) = (j : Int) := by
        unfold winnerIndex
        rw [heq]
        ring
      refine ⟨j, hjlen, ?_, ?_, ?_⟩
      · unfold determineWinner
        rw [if_neg hlensegs, if_neg (by rw [hwi]; omega), hwi]
        simp
      · intro k hk
        have h2 := hall k (by simpa using hk)
        rw [map_count_getD _ k hk, map_count_getD _ j hjlen] at h2
        exact h2
      · intro k hk
        have h2 := hstrict k hk
        rw [map_count_getD _ k (lt_trans hk hjlen), map_count_getD _ j hjlen] at h2
        exact h2
  · intro A B cA cB hA1 hA2 hB1 hB2 hAB
    have hmA : GroupMatch A cA
        { data := A, count := 1,
          checksumValidForNEC := if A.brand = RemoteBrand.NEC then cA else false } := by
      refine ⟨⟨rfl, rfl, rfl⟩, fun hN => ?_⟩
      simp [hN]
    have hmB : ¬ GroupMatch B cB
        { data := A, count := 1 + 1,
          checksumValidForNEC := if A.brand = RemoteBrand.NEC then cA else false } := by
      intro hm
      obtain ⟨⟨hb', hc', ha'⟩, _⟩ := hm
      apply hAB
      cases A
      cases B
      simp_all
    have step1 : addSegment [] A cA =
        [{ data := A, count := 1,
           checksumValidForNEC := if A.brand = RemoteBrand.NEC then cA else false }] := by
      unfold addSegment
      rw [if_pos ⟨hA1, hA2⟩]
      simp [bumpFirst, IR_LIB_MAX_DECODED_SEGMENTS]
    have step2 : addSegment
        [{ data := A, count := 1,
           checksumValidForNEC := if A.brand = RemoteBrand.NEC then cA else false }] A cA =
        [{ data := A, count := 1 + 1,
           checksumValidForNEC := if A.brand = RemoteBrand.NEC then cA else false }] := by
      unfold addSegment bumpFirst
      rw [if_pos ⟨hA1, hA2⟩, if_pos hmA]
    have step3 : addSegment
        [{ data := A, count := 1 + 1,
           checksumValidForNEC := if A.brand = RemoteBrand.NEC then cA else false }] B cB =
        [{ data := A, count := 1 + 1,
           checksumValidForNEC := if A.brand = RemoteBrand.NEC then cA else false },
         { data := B, count := 1,
           checksumValidForNEC := if B.brand = RemoteBrand.NEC then cB else false }] := by
      unfold addSegment bumpFirst
      rw [if_pos ⟨hB1, hB2⟩, if_neg hmB]
      simp [bumpFirst, IR_LIB_MAX_DECODED_SEGMENTS]
    have hbg : buildGroups [(A, cA), (A, cA), (B, cB)] =
        [{ data := A, count := 1 + 1,
           checksumValidForNEC := if A.brand = RemoteBrand.NEC then cA else false },
         { data := B, count := 1,
           checksumValidForNEC := if B.brand = RemoteBrand.NEC then cB else false }] := by
      unfold buildGroups
      simp only [List.foldl]
      rw [step1, step2, step3]
    unfold determineWinner
    rw [hbg, if_neg (by simp)]
    have hw : winnerIndex
        (([{ data := A, count := 1 + 1,
             checksumValidForNEC := if A.brand = RemoteBrand.NEC then cA else false },
           { data := B, count := 1,
             checksumValidForNEC := if B.brand = RemoteBrand.NEC then cB else false }] :
          List DecodedCount).map
          (·.count)) = 0 := by
      simp only [List.map_cons, List.map_nil]
      norm_num [winnerIndex, winnerIndexAux]
    rw [hw, if_neg (by omega)]
    simp

/-- Three concrete decoded NEC segments with values A, A, B. -/
def votingSegsSample : List (DecodedIR × Bool) :=
  [({ brand := RemoteBrand.NEC, command := 12, address := 0 }, false),
   ({ brand := RemoteBrand.NEC, command := 12, address := 0 }, false),
   ({ brand := RemoteBrand.NEC, command := 13, address := 0 }, false)]

/-- Witness for C2 at `votingSegsSample` (and the A, A, B instance at concrete
frames). -/
theorem voting_selects_majority_group_witness :
    (∃ i, i < (buildGroups votingSegsSample).length ∧
      determineWinner votingSegsSample =
        ((buildGroups votingSegsSample).getD i { data := DecodedIR.empty }).data ∧
      (∀ j, j < (buildGroups votingSegsSample).length →
        ((buildGroups votingSegsSample).getD j { data := DecodedIR.empty }).count ≤
          ((buildGroups votingSegsSample).getD i { data := DecodedIR.empty }).count) ∧
      (∀ j, j < i →
        ((buildGroups votingSegsSample).getD j { data := DecodedIR.empty }).count <
          ((buildGroups votingSegsSample).getD i { data := DecodedIR.empty }).count)) ∧
    determineWinner
        [({ brand := RemoteBrand.NEC, command := 12, address := 0 }, true),
         ({ brand := RemoteBrand.NEC, command := 12, address := 0 }, true),
         ({ brand := RemoteBrand.NEC, command := 13, address := 0 }, true)] =
      { brand := RemoteBrand.NEC, command := 12, address := 0 } :=
  ⟨(voting_selects_majority_group votingSegsSample (by decide) (by decide)).1,
   (voting_selects_majority_group votingSegsSample (by decide) (by decide)).2
     { brand := RemoteBrand.NEC, command := 12, address := 0 }
     { brand := RemoteBrand.NEC, command := 13, address := 0 } true true
     (by decide) (by decide) (by decide) (by decide) (by decide)⟩
